import Mathlib

/-!
Verification of the `multi_compress.py` Ansible module (archive/unarchive
operator).  The Python source is shallowly embedded: pure string-building
code becomes Lean functions on `String`, the effectful executor becomes a
function from an explicit environment (command runner, `os.path.isdir`,
removal success) to an outcome plus a record of its side effects.
-/

namespace MultiArchive

/-- Python's `str.endswith(suffix)`: `suffix` is a suffix of the string
(decidable on the character lists). -/
def pyEndsWith (s suffix : String) : Bool := decide (suffix.data <:+ s.data)

/-- Embedding of `detect_archive_format` (src/multi_compress.py lines
202-212): suffix-based archive-format detection, checking `.zip` first,
then `.tar.gz`/`.tgz`, then `.tar.bz2`/`.tbz`, returning `none`
(Python `None`) when nothing matches. -/
def detect_archive_format (source : String) : Option String :=
  if pyEndsWith source ".zip" then some "zip"
  else if pyEndsWith source ".tar.gz" || pyEndsWith source ".tgz" then some "tar.gz"
  else if pyEndsWith source ".tar.bz2" || pyEndsWith source ".tbz" then some "tar.bz2"
  else none

lemma pyEndsWith_iff (s suffix : String) :
    pyEndsWith s suffix = true ↔ suffix.data <:+ s.data := by
  simp [pyEndsWith]

/-- Two would-be suffixes of the same list that are not suffixes of one
another cannot both be suffixes of it. -/
lemma not_suffix_of_incomparable {a b : List Char}
    (hab : ¬ a <:+ b) (hba : ¬ b <:+ a) {s : List Char} (ha : a <:+ s) :
    ¬ b <:+ s := by
  intro hb
  rcases List.suffix_or_suffix_of_suffix ha hb with h | h
  · exact hab h
  · exact hba h

/-! ## Shell word splitting

The Python module builds each command as one shell string and runs it with
`shell=True`.  To talk about the spec's "argument vector" (tool, flags,
operands) we model POSIX shell word splitting for the fragment the module
uses: words separated by spaces, with single-quoted regions taken verbatim
(no spaces split inside them, quotes removed).  This definition follows the
spec's notion of a `BuiltCommand` argument vector, not the Python source. -/

/-- Word-splitting worker: `inQ` says whether we are inside a single-quoted
region, `cur` holds the characters of the current word in reverse. -/
def shAux (inQ : Bool) (cur : List Char) : List Char → List String
  | [] => if cur = [] then [] else [String.mk cur.reverse]
  | c :: rest =>
    if c = '\'' then shAux (!inQ) cur rest
    else if inQ = false ∧ c = ' ' then
      if cur = [] then shAux false [] rest
      else String.mk cur.reverse :: shAux false [] rest
    else shAux inQ (c :: cur) rest

/-- The argument vector a POSIX shell derives from a command string. -/
def shellTokens (s : String) : List String := shAux false [] s.data

/-- A string usable as a single unquoted shell word: nonempty, no space,
no single quote. -/
def PlainWord (w : String) : Prop :=
  w.data ≠ [] ∧ ∀ c ∈ w.data, c ≠ '\'' ∧ c ≠ ' '

instance (w : String) : Decidable (PlainWord w) := by
  unfold PlainWord; infer_instance

lemma shAux_accum {c : Char} (hq : c ≠ '\'') (hs : c ≠ ' ')
    (inQ : Bool) (cur rest : List Char) :
    shAux inQ cur (c :: rest) = shAux inQ (c :: cur) rest := by
  simp [shAux, hq, hs]

lemma shAux_accum_quoted {c : Char} (hq : c ≠ '\'') (cur rest : List Char) :
    shAux true cur (c :: rest) = shAux true (c :: cur) rest := by
  simp [shAux, hq]

lemma shAux_quote (inQ : Bool) (cur rest : List Char) :
    shAux inQ cur ('\'' :: rest) = shAux (!inQ) cur rest := by
  simp [shAux]

lemma shAux_flush {cur : List Char} (h : cur ≠ []) (rest : List Char) :
    shAux false cur (' ' :: rest) =
      String.mk cur.reverse :: shAux false [] rest := by
  simp [shAux, h]

/-- Scanning a run of plain characters just accumulates them. -/
lemma shAux_plain_seg {w : List Char} (hw : ∀ c ∈ w, c ≠ '\'' ∧ c ≠ ' ')
    (inQ : Bool) (cur rest : List Char) :
    shAux inQ cur (w ++ rest) = shAux inQ (w.reverse ++ cur) rest := by
  induction w generalizing cur with
  | nil => simp
  | cons c w ih =>
    have hc := hw c (by simp)
    rw [List.cons_append, shAux_accum hc.1 hc.2, ih (fun c hc => hw c (by simp [hc]))]
    simp

/-- Inside a quoted region, any quote-free run accumulates (spaces included). -/
lemma shAux_quoted_seg {w : List Char} (hw : ∀ c ∈ w, c ≠ '\'')
    (cur rest : List Char) :
    shAux true cur (w ++ rest) = shAux true (w.reverse ++ cur) rest := by
  induction w generalizing cur with
  | nil => simp
  | cons c w ih =>
    rw [List.cons_append, shAux_accum_quoted (hw c (by simp)),
      ih (fun c hc => hw c (by simp [hc]))]
    simp

/-- A nonempty plain word on its own splits into exactly that word. -/
lemma shAux_single_word {w : String} (hw : PlainWord w) :
    shAux false [] w.data = [w] := by
  have := shAux_plain_seg hw.2 false [] ([] : List Char)
  simp only [List.append_nil] at this
  rw [this]
  simp [shAux, hw.1]

/-! ## String helpers and command builders -/

lemma str_data_append (s t : String) : (s ++ t).data = s.data ++ t.data := rfl

lemma str_mk_data (s : String) : String.mk s.data = s := by cases s; rfl

/-- Python's `sep.join(xs)`. -/
def pyJoin (sep : String) : List String → String
  | [] => ""
  | [x] => x
  | x :: y :: xs => x ++ sep ++ pyJoin sep (y :: xs)

/-- The text the exclude loop of `archive` appends to the command:
one ` --exclude='<pattern>'` segment per pattern, in order. -/
def excStr : List String → String
  | [] => ""
  | p :: ps => " --exclude='" ++ p ++ "'" ++ excStr ps

/-- Embedding of the exclude loop of `archive` (src/multi_compress.py
lines 171-173): `for pattern in exclude: cmd += f" --exclude='{pattern}'"`. -/
def excFold (cmd : String) (exclude : List String) : String :=
  exclude.foldl (fun c p => c ++ " --exclude='" ++ p ++ "'") cmd

lemma str_ext {s t : String} (h : s.data = t.data) : s = t := by
  cases s; cases t; exact congrArg String.mk (by simpa using h)

lemma excFold_eq (cmd : String) (ps : List String) :
    excFold cmd ps = cmd ++ excStr ps := by
  induction ps generalizing cmd with
  | nil =>
    apply str_ext
    simp [excFold, excStr, str_data_append]
  | cons p ps ih =>
    show excFold (cmd ++ " --exclude='" ++ p ++ "'") ps = _
    rw [ih]
    apply str_ext
    simp [excStr, str_data_append]

/-- Embedding of the command construction of `archive` (src/multi_compress.py
lines 161-182).  `format` is the (possibly absent) format string, `incl` and
`exclude` the include/exclude pattern lists (`include` is a Lean keyword, so
the parameter is named `incl`).  Returns `none` exactly when the Python code
reaches `module.fail_json(msg=f"Unsupported format: {format}")`. -/
def archiveCmd (format : Option String) (compression source dest : String)
    (incl exclude : List String) : Option String :=
  if format = some "tar.gz" ∨ format = some "tar.bz2" then
    let cmd := "tar"
    let cmd := if format = some "tar.gz" then
        (if compression = "none" then cmd ++ " -z" else cmd ++ " -I pigz")
      else cmd ++ " -j"
    let cmd := cmd ++ " -cf " ++ dest
    let cmd := excFold cmd exclude
    let cmd := if incl = [] then cmd ++ " " ++ source
      else cmd ++ " " ++ pyJoin " " incl
    some cmd
  else if format = some "zip" then
    some ("zip -r " ++ dest ++ " " ++ source)
  else none

/-- Embedding of the command selection of `unarchive` (src/multi_compress.py
lines 229-236).  Returns `none` exactly when the Python code reaches
`module.fail_json(msg=f"Unsupported archive format: {format}")`. -/
def unarchiveCmd (format : Option String) (source dest : String) :
    Option String :=
  if format = some "zip" then
    some ("unzip -o '" ++ source ++ "' -d '" ++ dest ++ "'")
  else if format = some "tar.gz" then
    some ("tar -xzf '" ++ source ++ "' -C '" ++ dest ++ "'")
  else if format = some "tar.bz2" then
    some ("tar -xjf '" ++ source ++ "' -C '" ++ dest ++ "'")
  else none

/-! ## Tokenizing the built commands -/

/-- A space-joined list of nonempty plain words splits back into the words. -/
lemma shAux_join_words {ws : List String} (hne : ws ≠ [])
    (hw : ∀ w ∈ ws, PlainWord w) :
    shAux false [] (pyJoin " " ws).data = ws := by
  induction ws with
  | nil => exact absurd rfl hne
  | cons x ws ih =>
    cases ws with
    | nil => exact shAux_single_word (hw x (by simp))
    | cons y ys =>
      have hx := hw x (by simp)
      have hdata : (pyJoin " " (x :: y :: ys)).data =
          x.data ++ (' ' :: (pyJoin " " (y :: ys)).data) := by
        show ((x ++ " ") ++ pyJoin " " (y :: ys)).data = _
        simp [str_data_append]
      rw [hdata, shAux_plain_seg hx.2, List.append_nil,
        shAux_flush (by simpa using hx.1)]
      simp only [List.reverse_reverse, str_mk_data]
      rw [ih (by simp) (fun w hw' => hw w (by simp [hw']))]

/-- Scanning the exclude segment: starting mid-word with `cur` pending and a
space right after the segment, the pending word is flushed and each pattern
yields exactly one `--exclude=<pattern>` word, in order. -/
lemma shAux_exc_chain {ps : List String} (he : ∀ p ∈ ps, '\'' ∉ p.data)
    {cur : List Char} (hcur : cur ≠ []) (tail : List Char) :
    shAux false cur ((excStr ps).data ++ (' ' :: tail)) =
      String.mk cur.reverse ::
        (ps.map (fun p => "--exclude=" ++ p) ++ shAux false [] tail) := by
  induction ps generalizing cur with
  | nil =>
    show shAux false cur (' ' :: tail) = _
    rw [shAux_flush hcur]
    simp
  | cons p ps ih =>
    have hdata : (excStr (p :: ps)).data ++ (' ' :: tail) =
        ' ' :: ("--exclude=".data ++
          ('\'' :: (p.data ++ ('\'' :: ((excStr ps).data ++ (' ' :: tail)))))) := by
      show ((((" --exclude='" : String) ++ p) ++ "'") ++ excStr ps).data ++ _ = _
      simp [str_data_append]
    rw [hdata, shAux_flush hcur,
      shAux_plain_seg (by decide) false ([] : List Char), List.append_nil,
      shAux_quote, Bool.not_false,
      shAux_quoted_seg (fun c hc h' => he p (by simp) (h' ▸ hc)),
      shAux_quote, Bool.not_true,
      ih (fun q hq => he q (by simp [hq]))
        (by simp [List.append_eq_nil])]
    have hmk : String.mk (p.data.reverse ++ "--exclude=".data.reverse).reverse =
        "--exclude=" ++ p := by
      apply str_ext
      simp [str_data_append]
    rw [hmk]
    simp

/-- Literal prefix `tar -z -cf `. -/
lemma shAux_pre_z (r : List Char) :
    shAux false [] ((("tar" ++ " -z") ++ " -cf ").data ++ r) =
      ["tar", "-z", "-cf"] ++ shAux false [] r := by
  show shAux false []
    (['t','a','r',' ','-','z',' ','-','c','f',' '] ++ r) = _
  simp [shAux]

/-- Literal prefix `tar -I pigz -cf `. -/
lemma shAux_pre_pigz (r : List Char) :
    shAux false [] ((("tar" ++ " -I pigz") ++ " -cf ").data ++ r) =
      ["tar", "-I", "pigz", "-cf"] ++ shAux false [] r := by
  show shAux false []
    (['t','a','r',' ','-','I',' ','p','i','g','z',' ','-','c','f',' '] ++ r) = _
  simp [shAux]

/-- Literal prefix `tar -j -cf `. -/
lemma shAux_pre_j (r : List Char) :
    shAux false [] ((("tar" ++ " -j") ++ " -cf ").data ++ r) =
      ["tar", "-j", "-cf"] ++ shAux false [] r := by
  show shAux false []
    (['t','a','r',' ','-','j',' ','-','c','f',' '] ++ r) = _
  simp [shAux]

/-- Core shape of a tar-family pack command: prefix tokens, then the
destination, then one `--exclude=` token per pattern, then whatever the
operand text splits into. -/
lemma tarCmd_tokens (pre : String) (preToks : List String)
    (hpre : ∀ r, shAux false [] ((pre ++ " -cf ").data ++ r) =
      preToks ++ shAux false [] r)
    (dest W : String) (exclude : List String)
    (hd : PlainWord dest) (he : ∀ p ∈ exclude, '\'' ∉ p.data) :
    shellTokens ((excFold ((pre ++ " -cf ") ++ dest) exclude ++ " ") ++ W) =
      preToks ++ dest ::
        (exclude.map (fun p => "--exclude=" ++ p) ++ shAux false [] W.data) := by
  have hdata : (((excFold ((pre ++ " -cf ") ++ dest) exclude ++ " ") ++ W)).data =
      (pre ++ " -cf ").data ++
        (dest.data ++ ((excStr exclude).data ++ (' ' :: W.data))) := by
    rw [excFold_eq]
    have hsp : (" " : String).data = [' '] := rfl
    simp [str_data_append, hsp]
  show shAux false [] _ = _
  rw [hdata, hpre, shAux_plain_seg hd.2, List.append_nil,
    shAux_exc_chain he (by simp [hd.1])]
  simp [str_mk_data]

/-- Argument vector of every pack command the module builds for the two
tar-family formats. -/
lemma archive_tokens (format : String)
    (hf : format = "tar.gz" ∨ format = "tar.bz2")
    (compression source dest : String) (incl exclude : List String)
    (hs : PlainWord source) (hd : PlainWord dest)
    (hi : ∀ w ∈ incl, PlainWord w) (he : ∀ p ∈ exclude, '\'' ∉ p.data) :
    (archiveCmd (some format) compression source dest incl exclude).map
        shellTokens =
      some ("tar" ::
        ((if format = "tar.gz" then
            (if compression = "none" then ["-z"] else ["-I", "pigz"])
          else ["-j"]) ++
          "-cf" :: dest ::
            (exclude.map (fun p => "--exclude=" ++ p) ++
              (if incl = [] then [source] else incl)))) := by
  have hW : shAux false []
      ((if incl = [] then source else pyJoin " " incl).data) =
      (if incl = [] then [source] else incl) := by
    by_cases hincl : incl = []
    · simp only [hincl, if_pos rfl]
      exact shAux_single_word hs
    · simp only [if_neg hincl]
      exact shAux_join_words hincl hi
  rcases hf with rfl | rfl
  · by_cases hc : compression = "none"
    · simp only [archiveCmd, hc, if_pos rfl]
      have := tarCmd_tokens ("tar" ++ " -z") ["tar", "-z", "-cf"] shAux_pre_z dest
        (if incl = [] then source else pyJoin " " incl) exclude hd he
      by_cases hincl : incl = [] <;>
        simp_all [Option.map_some, apply_ite (fun s : String => s.data)]
    · simp only [archiveCmd, hc, if_pos rfl]
      have := tarCmd_tokens ("tar" ++ " -I pigz") ["tar", "-I", "pigz", "-cf"]
        shAux_pre_pigz dest
        (if incl = [] then source else pyJoin " " incl) exclude hd he
      by_cases hincl : incl = [] <;>
        simp_all [Option.map_some, apply_ite (fun s : String => s.data)]
  · simp only [archiveCmd]
    have := tarCmd_tokens ("tar" ++ " -j") ["tar", "-j", "-cf"] shAux_pre_j dest
      (if incl = [] then source else pyJoin " " incl) exclude hd he
    by_cases hincl : incl = [] <;>
      simp_all [Option.map_some, apply_ite (fun s : String => s.data)]

/-- Argument vector of the tar.gz unpack command the module builds. -/
lemma unarchive_tokens_targz (source dest : String)
    (hs : source.data ≠ []) (hsq : '\'' ∉ source.data)
    (hd : dest.data ≠ []) (hdq : '\'' ∉ dest.data) :
    shellTokens (((("tar -xzf '" ++ source) ++ "' -C '") ++ dest) ++ "'") =
      ["tar", "-xzf", source, "-C", dest] := by
  have hdata : ((((("tar -xzf '" ++ source) ++ "' -C '") ++ dest) ++ "'")).data =
      ['t','a','r',' ','-','x','z','f',' ','\''] ++
        (source.data ++
          ('\'' :: ' ' :: ('-' :: 'C' :: ' ' :: '\'' ::
            (dest.data ++ ['\''])))) := by
    have h1 : ("tar -xzf '" : String).data =
        ['t','a','r',' ','-','x','z','f',' ','\''] := rfl
    have h2 : ("' -C '" : String).data = ['\'',' ','-','C',' ','\''] := rfl
    have h3 : ("'" : String).data = ['\''] := rfl
    simp [str_data_append, h1, h2, h3]
  have step1 : ∀ r, shAux false []
      (['t','a','r',' ','-','x','z','f',' ','\''] ++ r) =
      "tar" :: "-xzf" :: shAux true [] r := by
    intro r; simp [shAux]
  have step2 : ∀ r, shAux false [] ('-' :: 'C' :: ' ' :: '\'' :: r) =
      "-C" :: shAux true [] r := by
    intro r; simp [shAux]
  show shAux false [] _ = _
  rw [hdata, step1, shAux_quoted_seg (fun c hc h' => hsq (h' ▸ hc)),
    List.append_nil, shAux_quote, Bool.not_true,
    shAux_flush (by simp [hs]), step2,
    shAux_quoted_seg (fun c hc h' => hdq (h' ▸ hc)),
    List.append_nil, shAux_quote, Bool.not_true]
  simp [shAux, hd, str_mk_data]

/-! ## Executor model

`archive`/`unarchive` run one external command, optionally delete the
source, and report through `exit_json`/`fail_json` (both of which terminate
the module).  The environment supplies the outcome of `run_command`
(success flag and captured output), `os.path.isdir`, and whether a
deletion (`shutil.rmtree`/`os.remove`) would succeed.  An exception raised
by a failing deletion is modelled as `Outcome.pyError` (an unhandled Python
exception; the module reports neither success nor a structured failure).
`os.makedirs` is modelled as always succeeding, which is all the claims
need. -/

/-- The module parameters, as validated by the `AnsibleModule` argument
spec in `main` (src/multi_compress.py lines 267-277).  `include` is a Lean
keyword, so that field is named `incl`. -/
structure Params where
  source : String
  dest : String
  format : Option String
  compression : String
  state : String
  delete_source : Bool
  incl : List String
  exclude : List String
deriving DecidableEq

/-- External world: command runner, directory test, deletion success. -/
structure Env where
  run_command : String → Bool × String
  isdir : String → Bool
  remove_ok : String → Bool

/-- How a module run ends: `exit_json` with its keyword arguments (as
key/value pairs), `fail_json` with its message, or an unhandled Python
exception. -/
inductive Outcome where
  | exitJson (fields : List (String × String))
  | failJson (msg : String)
  | pyError
deriving DecidableEq

/-- Observable side effects of a run: commands handed to `run_command`,
directories created, and paths removed (with a flag marking recursive
`shutil.rmtree` removal as opposed to `os.remove`). -/
structure Effects where
  commandsRun : List String
  dirsCreated : List String
  removedPaths : List (String × Bool)
deriving DecidableEq

/-- Python `f"...{format}..."` rendering of the format value: `None` when
absent. -/
def pyRepr : Option String → String
  | none => "None"
  | some s => s

/-- Embedding of `archive` (src/multi_compress.py lines 149-195). -/
def archive (env : Env) (p : Params) : Outcome × Effects :=
  match archiveCmd p.format p.compression p.source p.dest p.incl p.exclude with
  | none =>
    (.failJson ("Unsupported format: " ++ pyRepr p.format),
      ⟨[], [], []⟩)
  | some cmd =>
    let r := env.run_command cmd
    if r.1 = false then
      (.failJson ("Failed to archive " ++ p.source ++ ": " ++ r.2),
        ⟨[cmd], [], []⟩)
    else if p.delete_source then
      if env.isdir p.source then
        if env.remove_ok p.source then
          (.exitJson [("changed", "True"),
            ("msg", p.source ++ " archived to " ++ p.dest ++ " successfully.")],
            ⟨[cmd], [], [(p.source, true)]⟩)
        else (.pyError, ⟨[cmd], [], []⟩)
      else
        if env.remove_ok p.source then
          (.exitJson [("changed", "True"),
            ("msg", p.source ++ " archived to " ++ p.dest ++ " successfully.")],
            ⟨[cmd], [], [(p.source, false)]⟩)
        else (.pyError, ⟨[cmd], [], []⟩)
    else
      (.exitJson [("changed", "True"),
        ("msg", p.source ++ " archived to " ++ p.dest ++ " successfully.")],
        ⟨[cmd], [], []⟩)

/-- Embedding of `ensure_directory_exists` (src/multi_compress.py lines
197-200): the list of directories it creates. -/
def ensure_directory_exists (env : Env) (path : String) : List String :=
  if env.isdir path then [] else [path]

/-- Embedding of `unarchive` (src/multi_compress.py lines 214-251).
`ensure_directory_exists` runs first; then the format is auto-detected if
unset; then the command is selected, run, and on success the source is
deleted if requested. -/
def unarchive (env : Env) (p : Params) : Outcome × Effects :=
  let dirs := ensure_directory_exists env p.dest
  let format := match p.format with
    | none => detect_archive_format p.source
    | some f => some f
  match unarchiveCmd format p.source p.dest with
  | none =>
    (.failJson ("Unsupported archive format: " ++ pyRepr format),
      ⟨[], dirs, []⟩)
  | some cmd =>
    let r := env.run_command cmd
    if r.1 = false then
      (.failJson ("Failed to unarchive " ++ p.source ++ ": " ++ r.2),
        ⟨[cmd], dirs, []⟩)
    else if p.delete_source then
      if env.remove_ok p.source then
        (.exitJson [("changed", "True"),
          ("msg", p.source ++ " successfully unarchived to " ++ p.dest ++ ".")],
          ⟨[cmd], dirs, [(p.source, false)]⟩)
      else (.pyError, ⟨[cmd], dirs, []⟩)
    else
      (.exitJson [("changed", "True"),
        ("msg", p.source ++ " successfully unarchived to " ++ p.dest ++ ".")],
        ⟨[cmd], dirs, []⟩)

/-- The module declares `supports_check_mode=True`
(src/multi_compress.py line 279). -/
def supports_check_mode : Bool := true

/-- Format resolution performed in `main` (src/multi_compress.py lines
282-283): an unset format is replaced by suffix detection on the SOURCE
path, whatever the operation direction. -/
def mainResolvedFormat (p : Params) : Option String :=
  match p.format with
  | none => detect_archive_format p.source
  | some f => some f

/-- Embedding of `main` (src/multi_compress.py lines 266-288).
`check_mode` is the check-mode flag of the `AnsibleModule`; the source
never reads it, which is exactly what claim C10 is about. -/
def main (check_mode : Bool) (env : Env) (p : Params) : Outcome × Effects :=
  let p := { p with format := mainResolvedFormat p }
  if p.state = "archived" then archive env p else unarchive env p

/-! ## Claim theorems -/

lemma pyEndsWith_false {s t : String} (h : ¬ t.data <:+ s.data) :
    pyEndsWith s t = false := by
  simp [pyEndsWith, h]

/-- Modelled from the spec (§4.1 Format Resolver): explicit format is
authoritative; else the reference path's suffix is inspected in the spec's
priority order `.tar.gz`/`.tgz` → tar.gz, `.tar.bz2`/`.tbz`/`.tbz2` →
tar.bz2, `.zip` → zip, else unresolved. -/
def resolveSpec (explicitFormat : Option String) (referencePath : String) :
    Option String :=
  match explicitFormat with
  | some f => some f
  | none =>
    if pyEndsWith referencePath ".tar.gz" || pyEndsWith referencePath ".tgz" then
      some "tar.gz"
    else if pyEndsWith referencePath ".tar.bz2" || pyEndsWith referencePath ".tbz"
        || pyEndsWith referencePath ".tbz2" then
      some "tar.bz2"
    else if pyEndsWith referencePath ".zip" then some "zip"
    else none

/-- Modelled from the spec (§4.1): "For Pack operations, `referencePath` is
the destination path; for Unpack operations, it is the source path." -/
def specReferencePath (state source dest : String) : String :=
  if state = "archived" then dest else source

/-- C1 counterexample: for a Pack request without an explicit format the
spec's resolver inspects the destination suffix and yields tar.gz, but the
code's resolution in `main` inspects the source path and yields None. -/
theorem c1_counterexample :
    resolveSpec none
        (specReferencePath "archived" "/path/to/directory"
          "/path/to/archive.tar.gz") = some "tar.gz" ∧
      mainResolvedFormat
        ⟨"/path/to/directory", "/path/to/archive.tar.gz", none, "none",
          "archived", false, [], []⟩ = none := by
  decide

/-- C1 (amended): for every request without an explicit format — Pack and
Unpack alike — format resolution inspects the SOURCE path's suffix (the
destination path and the direction play no role); when an explicit format
is supplied it is returned directly with no suffix inspection. -/
theorem c1_amended :
    (∀ (p : Params) (f : String), p.format = some f →
      mainResolvedFormat p = some f) ∧
    (∀ p : Params, p.format = none →
      mainResolvedFormat p = detect_archive_format p.source) ∧
    (∀ (p : Params) (dest2 compression2 state2 : String) (d2 : Bool)
      (i2 e2 : List String),
      mainResolvedFormat { p with
          dest := dest2, compression := compression2, state := state2,
          delete_source := d2, incl := i2, exclude := e2 } =
        mainResolvedFormat p) := by
  refine ⟨?_, ?_, ?_⟩
  · intro p f h
    simp [mainResolvedFormat, h]
  · intro p h
    simp [mainResolvedFormat, h]
  · intro p dest2 compression2 state2 d2 i2 e2
    cases h : p.format <;> simp [mainResolvedFormat, h]

/-- C1 witness: an explicit zip format is returned directly; an absent
format falls back to suffix detection on the source. -/
theorem c1_amended_witness :
    mainResolvedFormat ⟨"s", "d", some "zip", "none", "archived", false, [], []⟩ =
        some "zip" ∧
      mainResolvedFormat
        ⟨"a.tar.gz", "d", none, "none", "unarchived", false, [], []⟩ =
        detect_archive_format "a.tar.gz" :=
  ⟨c1_amended.1 _ "zip" rfl, c1_amended.2.1 _ rfl⟩

/-- C2 counterexample: the claim maps a path ending in `.tbz2` to TarBz2,
but `detect_archive_format` only tests `.tar.bz2` and `.tbz` and returns
None (Unresolved) on "a.tbz2". -/
theorem c2_counterexample :
    detect_archive_format "a.tbz2" = none ∧
      detect_archive_format "a.tbz2" ≠ some "tar.bz2" := by
  decide

/-- C2 (amended): suffix-based resolution is a deterministic total
function mapping `.tar.gz`/`.tgz` to tar.gz, `.tar.bz2`/`.tbz` to tar.bz2,
`.zip` to zip and anything else — including bare `.tbz2` — to None. -/
theorem c2_amended (s : String) :
    ((pyEndsWith s ".tar.gz" = true ∨ pyEndsWith s ".tgz" = true) →
      detect_archive_format s = some "tar.gz") ∧
    ((pyEndsWith s ".tar.bz2" = true ∨ pyEndsWith s ".tbz" = true) →
      detect_archive_format s = some "tar.bz2") ∧
    (pyEndsWith s ".zip" = true → detect_archive_format s = some "zip") ∧
    (pyEndsWith s ".tar.gz" = false → pyEndsWith s ".tgz" = false →
      pyEndsWith s ".tar.bz2" = false → pyEndsWith s ".tbz" = false →
      pyEndsWith s ".zip" = false → detect_archive_format s = none) := by
  refine ⟨?_, ?_, ?_, ?_⟩
  · rintro (h | h)
    · have h' := (pyEndsWith_iff s ".tar.gz").1 h
      have hz : pyEndsWith s ".zip" = false :=
        pyEndsWith_false (not_suffix_of_incomparable (by decide) (by decide) h')
      simp [detect_archive_format, hz, h]
    · have h' := (pyEndsWith_iff s ".tgz").1 h
      have hz : pyEndsWith s ".zip" = false :=
        pyEndsWith_false (not_suffix_of_incomparable (by decide) (by decide) h')
      simp [detect_archive_format, hz, h]
  · rintro (h | h)
    · have h' := (pyEndsWith_iff s ".tar.bz2").1 h
      have hz : pyEndsWith s ".zip" = false :=
        pyEndsWith_false (not_suffix_of_incomparable (by decide) (by decide) h')
      have hg : pyEndsWith s ".tar.gz" = false :=
        pyEndsWith_false (not_suffix_of_incomparable (by decide) (by decide) h')
      have ht : pyEndsWith s ".tgz" = false :=
        pyEndsWith_false (not_suffix_of_incomparable (by decide) (by decide) h')
      simp [detect_archive_format, hz, hg, ht, h]
    · have h' := (pyEndsWith_iff s ".tbz").1 h
      have hz : pyEndsWith s ".zip" = false :=
        pyEndsWith_false (not_suffix_of_incomparable (by decide) (by decide) h')
      have hg : pyEndsWith s ".tar.gz" = false :=
        pyEndsWith_false (not_suffix_of_incomparable (by decide) (by decide) h')
      have ht : pyEndsWith s ".tgz" = false :=
        pyEndsWith_false (not_suffix_of_incomparable (by decide) (by decide) h')
      simp [detect_archive_format, hz, hg, ht, h]
  · intro h
    simp [detect_archive_format, h]
  · intro h1 h2 h3 h4 h5
    simp [detect_archive_format, h1, h2, h3, h4, h5]

/-- C2 witness: the resolver's table evaluated on the spec's sample
paths. -/
theorem c2_amended_witness :
    detect_archive_format "a.tar.gz" = some "tar.gz" ∧
    detect_archive_format "a.tbz" = some "tar.bz2" ∧
    detect_archive_format "a.zip" = some "zip" ∧
    detect_archive_format "a.xyz" = none :=
  ⟨(c2_amended "a.tar.gz").1 (Or.inl (by decide)),
   (c2_amended "a.tbz").2.1 (Or.inr (by decide)),
   (c2_amended "a.zip").2.2.1 (by decide),
   (c2_amended "a.xyz").2.2.2 (by decide) (by decide) (by decide) (by decide)
     (by decide)⟩

/-- Environment in which no directory exists (so `ensure_directory_exists`
creates the destination), the command runner succeeds, deletion
succeeds. -/
def envNoDirs : Env := ⟨fun _ => (true, ""), fun _ => false, fun _ => true⟩

/-- An Unpack request whose source suffix is undetectable and whose format
is unset. -/
def pUnresolved : Params :=
  ⟨"a.xyz", "newdir", none, "none", "unarchived", false, [], []⟩

/-- C3 counterexample: the unresolved-format Unpack does fail and runs no
command, but it creates the destination directory first — a filesystem
change, which the claim says never happens. -/
theorem c3_counterexample :
    (main false envNoDirs pUnresolved).2.dirsCreated = ["newdir"] ∧
    (main false envNoDirs pUnresolved).1 =
      Outcome.failJson "Unsupported archive format: None" ∧
    (main false envNoDirs pUnresolved).2.commandsRun = [] := by
  decide

/-- C3 (amended): an Unpack whose format is unset and undetectable fails
with the unsupported-format error, invokes no external process and deletes
nothing — but the destination directory is created beforehand if it does
not already exist. -/
theorem c3_amended (cm : Bool) (env : Env) (p : Params)
    (hstate : p.state = "unarchived") (hfmt : p.format = none)
    (hdet : detect_archive_format p.source = none) :
    main cm env p =
      (Outcome.failJson "Unsupported archive format: None",
        ⟨[], if env.isdir p.dest then [] else [p.dest], []⟩) := by
  simp [main, mainResolvedFormat, hfmt, hdet, hstate, unarchive,
    ensure_directory_exists, unarchiveCmd, pyRepr]

/-- C3 witness: the amended statement at the concrete unresolved Unpack. -/
theorem c3_amended_witness :
    main false envNoDirs pUnresolved =
      (Outcome.failJson "Unsupported archive format: None",
        ⟨[], ["newdir"], []⟩) := by
  simpa [envNoDirs, pUnresolved] using
    c3_amended false envNoDirs pUnresolved rfl rfl (by decide)

/-- Environment in which every command succeeds, every path is a
directory, and deletion succeeds. -/
def envRunOk : Env := ⟨fun _ => (true, "ok"), fun _ => true, fun _ => true⟩

/-- An Unpack request whose tar.gz format is auto-detected from the
source suffix. -/
def pAutoUnpack : Params :=
  ⟨"a.tar.gz", "d", none, "none", "unarchived", false, [], []⟩

/-- The exact keyword arguments `unarchive` passes to `exit_json` for
`pAutoUnpack`. -/
def c4Fields : List (String × String) :=
  [("changed", "True"), ("msg", "a.tar.gz successfully unarchived to d.")]

/-- C4: evaluation of the code at the failing input.  A successful
auto-detected Unpack returns only `changed` and `msg`: the result carries
no `original_source`, `destination`, `compression_used` or
`format_detected` field, although the module's RETURN documentation
promises the first two always and `format_detected` exactly in this
auto-detected case. -/
theorem c4_code_eval :
    main false envRunOk pAutoUnpack =
      (Outcome.exitJson c4Fields, ⟨["tar -xzf 'a.tar.gz' -C 'd'"], [], []⟩) ∧
    "original_source" ∉ c4Fields.map Prod.fst ∧
    "destination" ∉ c4Fields.map Prod.fst ∧
    "format_detected" ∉ c4Fields.map Prod.fst ∧
    "compression_used" ∉ c4Fields.map Prod.fst := by
  decide

/-- C5 counterexample: with compression = gzip the claim requires the
non-pigz `-z` flag, but the built command pipes through pigz and carries
no `-z`. -/
theorem c5_counterexample :
    archiveCmd (some "tar.gz") "gzip" "/s" "/d.tar.gz" [] [] =
      some "tar -I pigz -cf /d.tar.gz /s" ∧
    (archiveCmd (some "tar.gz") "gzip" "/s" "/d.tar.gz" [] []).map shellTokens =
      some ["tar", "-I", "pigz", "-cf", "/d.tar.gz", "/s"] ∧
    "-z" ∉ ["tar", "-I", "pigz", "-cf", "/d.tar.gz", "/s"] := by
  decide

/-- C5 (amended): for a tar.gz Pack the compression flag is `-z` exactly
when compression = none; for compression = gzip or pigz the command
carries `-I pigz` (gzip is treated like pigz, not as a non-pigz default
path). -/
theorem c5_amended (compression source dest : String)
    (incl exclude : List String)
    (hs : PlainWord source) (hd : PlainWord dest)
    (hi : ∀ w ∈ incl, PlainWord w) (he : ∀ p ∈ exclude, '\'' ∉ p.data) :
    (compression = "none" →
      (archiveCmd (some "tar.gz") compression source dest incl
          exclude).map shellTokens =
        some ("tar" :: "-z" :: "-cf" :: dest ::
          (exclude.map (fun p => "--exclude=" ++ p) ++
            (if incl = [] then [source] else incl)))) ∧
    ((compression = "gzip" ∨ compression = "pigz") →
      (archiveCmd (some "tar.gz") compression source dest incl
          exclude).map shellTokens =
        some ("tar" :: "-I" :: "pigz" :: "-cf" :: dest ::
          (exclude.map (fun p => "--exclude=" ++ p) ++
            (if incl = [] then [source] else incl)))) := by
  have h := archive_tokens "tar.gz" (Or.inl rfl) compression source dest
    incl exclude hs hd hi he
  constructor
  · intro hc
    subst hc
    simpa using h
  · intro hc
    rcases hc with hc | hc <;> subst hc <;> simpa using h

/-- C5 witness: the amended flag table at concrete requests. -/
theorem c5_amended_witness :
    (archiveCmd (some "tar.gz") "none" "/s" "/d.tar.gz" [] []).map
        shellTokens = some ["tar", "-z", "-cf", "/d.tar.gz", "/s"] ∧
    (archiveCmd (some "tar.gz") "pigz" "/s" "/d.tar.gz" [] []).map
        shellTokens = some ["tar", "-I", "pigz", "-cf", "/d.tar.gz", "/s"] := by
  constructor
  · simpa using (c5_amended "none" "/s" "/d.tar.gz" [] [] (by decide)
      (by decide) (by simp) (by simp)).1 rfl
  · simpa using (c5_amended "pigz" "/s" "/d.tar.gz" [] [] (by decide)
      (by decide) (by simp) (by simp)).2 (Or.inr rfl)

/-- An Unpack request with explicit tar.gz format and pigz compression. -/
def pPigzUnpack : Params :=
  ⟨"a.tar.gz", "d", some "tar.gz", "pigz", "unarchived", false, [], []⟩

/-- C6: evaluation of the code at the failing input.  With pigz
decompression requested, the executed command is plain `tar -xzf source
-C dest`: its argument vector contains no pigz-accelerated equivalent,
and the run is identical to one requesting gzip — `unarchive` never
consults the compression parameter, although the module documentation
advertises pigz for decompression. -/
theorem c6_code_eval :
    (main false envRunOk pPigzUnpack).2.commandsRun =
      ["tar -xzf 'a.tar.gz' -C 'd'"] ∧
    shellTokens "tar -xzf 'a.tar.gz' -C 'd'" =
      ["tar", "-xzf", "a.tar.gz", "-C", "d"] ∧
    "pigz" ∉ shellTokens "tar -xzf 'a.tar.gz' -C 'd'" ∧
    "-I" ∉ shellTokens "tar -xzf 'a.tar.gz' -C 'd'" ∧
    main false envRunOk pPigzUnpack =
      main false envRunOk { pPigzUnpack with compression := "gzip" } := by
  decide

/-- Environment in which commands succeed but any deletion fails
(e.g. permission denied), and no path is a directory. -/
def envRemoveFails : Env :=
  ⟨fun _ => (true, "ok"), fun _ => false, fun _ => false⟩

/-- A Pack request with delete_source = true. -/
def pDeleteArch : Params :=
  ⟨"/s", "/d.tar.gz", some "tar.gz", "none", "archived", true, [], []⟩

/-- C7 counterexample: the pack command runs and succeeds, the deletion
fails — and the run ends in an unhandled exception: no success report and
no distinct cleanup error, contradicting the claim that the primary
operation is still reported successful alongside a SourceCleanupError. -/
theorem c7_counterexample :
    main false envRemoveFails pDeleteArch =
      (Outcome.pyError, ⟨["tar -z -cf /d.tar.gz /s"], [], []⟩) := by
  decide

/-- C7 (amended): whenever delete_source is set and the deletion would
fail, the module never reports success: the run ends either in the
unhandled deletion exception (after a successful primary command) or in a
fail_json from an earlier stage.  No distinct SourceCleanupError exists. -/
theorem c7_amended (cm : Bool) (env : Env) (p : Params)
    (hdel : p.delete_source = true)
    (hrm : env.remove_ok p.source = false) :
    (main cm env p).1 = Outcome.pyError ∨
      ∃ msg, (main cm env p).1 = Outcome.failJson msg := by
  unfold main
  by_cases hst :
      ({ p with format := mainResolvedFormat p } : Params).state = "archived"
  · rw [if_pos hst]
    unfold archive
    rcases hcmd : archiveCmd (mainResolvedFormat p) p.compression p.source
        p.dest p.incl p.exclude with _ | cmd
    · simp [hcmd]
    · cases hr : (env.run_command cmd).1 <;>
        simp [hcmd, hr, hdel, hrm]
  · rw [if_neg hst]
    unfold unarchive
    rcases hcmd : unarchiveCmd
        (match mainResolvedFormat p with
          | none => detect_archive_format p.source
          | some f => some f) p.source p.dest with _ | cmd
    · simp [hcmd]
    · cases hr : (env.run_command cmd).1 <;>
        simp [hcmd, hr, hdel, hrm]

/-- C7 witness: the amended statement at the concrete failing-deletion
run. -/
theorem c7_amended_witness :
    (main false envRemoveFails pDeleteArch).1 = Outcome.pyError ∨
      ∃ msg, (main false envRemoveFails pDeleteArch).1 =
        Outcome.failJson msg :=
  c7_amended false envRemoveFails pDeleteArch rfl rfl

/-- C8: for a tar-family Pack, if the include list is non-empty the
operands of the built command are exactly the include patterns in order
(the source path is never implicitly added); if it is empty, the sole
operand is the source path. -/
theorem c8_operands (format : String)
    (hf : format = "tar.gz" ∨ format = "tar.bz2")
    (compression source dest : String) (incl exclude : List String)
    (hs : PlainWord source) (hd : PlainWord dest)
    (hi : ∀ w ∈ incl, PlainWord w) (he : ∀ p ∈ exclude, '\'' ∉ p.data) :
    (incl = [] →
      (archiveCmd (some format) compression source dest incl
          exclude).map shellTokens =
        some ("tar" ::
          ((if format = "tar.gz" then
              (if compression = "none" then ["-z"] else ["-I", "pigz"])
            else ["-j"]) ++
            "-cf" :: dest ::
              (exclude.map (fun p => "--exclude=" ++ p) ++ [source])))) ∧
    (incl ≠ [] →
      (archiveCmd (some format) compression source dest incl
          exclude).map shellTokens =
        some ("tar" ::
          ((if format = "tar.gz" then
              (if compression = "none" then ["-z"] else ["-I", "pigz"])
            else ["-j"]) ++
            "-cf" :: dest ::
              (exclude.map (fun p => "--exclude=" ++ p) ++ incl)))) := by
  have h := archive_tokens format hf compression source dest incl exclude
    hs hd hi he
  constructor
  · intro hincl
    rw [h, if_pos hincl]
  · intro hincl
    rw [h, if_neg hincl]

/-- C8 witness: the spec's sample include list produces exactly those
operands, and an empty include list produces the source operand. -/
theorem c8_operands_witness :
    (archiveCmd (some "tar.gz") "none" "src" "a.tar.gz"
        ["docs/", "readme.txt"] []).map shellTokens =
      some ["tar", "-z", "-cf", "a.tar.gz", "docs/", "readme.txt"] ∧
    (archiveCmd (some "tar.gz") "none" "src" "a.tar.gz" [] []).map
        shellTokens =
      some ["tar", "-z", "-cf", "a.tar.gz", "src"] := by
  constructor
  · simpa using (c8_operands "tar.gz" (Or.inl rfl) "none" "src" "a.tar.gz"
      ["docs/", "readme.txt"] [] (by decide) (by decide) (by decide)
      (by simp)).2 (by simp)
  · simpa using (c8_operands "tar.gz" (Or.inl rfl) "none" "src" "a.tar.gz"
      [] [] (by decide) (by decide) (by simp) (by simp)).1 rfl

/-- C9: for a tar-family Pack, the built command carries exactly one
discrete `--exclude=` token per pattern, in order, each holding that
single pattern unmodified — even a pattern containing spaces stays one
token (single-quoting in the command string), and patterns are never
merged. -/
theorem c9_excludes (format : String)
    (hf : format = "tar.gz" ∨ format = "tar.bz2")
    (compression source dest : String) (incl exclude : List String)
    (hs : PlainWord source) (hd : PlainWord dest)
    (hi : ∀ w ∈ incl, PlainWord w) (he : ∀ p ∈ exclude, '\'' ∉ p.data) :
    (archiveCmd (some format) compression source dest incl
        exclude).map shellTokens =
      some (("tar" ::
        (if format = "tar.gz" then
            (if compression = "none" then ["-z"] else ["-I", "pigz"])
          else ["-j"]) ++ ["-cf", dest]) ++
        (exclude.map (fun p => "--exclude=" ++ p) ++
          (if incl = [] then [source] else incl))) := by
  have h := archive_tokens format hf compression source dest incl exclude
    hs hd hi he
  rw [h]
  simp

/-- C9 witness: the spec's sample exclude list, plus a pattern with a
space and a glob, each yield one discrete unmodified token. -/
theorem c9_excludes_witness :
    (archiveCmd (some "tar.gz") "none" "src" "d.tar.gz" []
        ["*.log", "*.tmp", "a b"]).map shellTokens =
      some ["tar", "-z", "-cf", "d.tar.gz", "--exclude=*.log",
        "--exclude=*.tmp", "--exclude=a b", "src"] := by
  simpa using c9_excludes "tar.gz" (Or.inl rfl) "none" "src" "d.tar.gz"
    [] ["*.log", "*.tmp", "a b"] (by decide) (by decide) (by simp)
    (by decide)

/-- C10: the module declares check-mode support, yet every run is
independent of the check-mode flag — `main` never consults it, so the
same command is executed and the same deletion attempted with check mode
on or off. -/
theorem c10_check_mode_independent :
    supports_check_mode = true ∧
    ∀ (cm1 cm2 : Bool) (env : Env) (p : Params),
      main cm1 env p = main cm2 env p :=
  ⟨rfl, fun _ _ _ _ => rfl⟩

end MultiArchive
